import Mathlib

/-!
Verification of the video-tools repository: the transcription job lifecycle
(ProgressStore / JobOrchestrator / RecoveryTool) and the frontend upload and
regeneration logic.

The frontend definitions are translated directly from the TypeScript sources
(`VideoUploader.tsx`, `services/api.ts`, `SuggestionsPanel.tsx`).  The backend
pipeline (orchestrator, progress store, recovery tool) is present in the
repository only through its design documentation, so those definitions are
modelled from the specification, as marked in their doc comments.
-/

namespace VideoTools

/-! ## JavaScript string primitives

Structural (kernel-reducible) implementations of the JavaScript string
operations the frontend uses: `split`, `toLowerCase`, `trim`, `includes` of a
character, and `Array.prototype.join`. -/

/-- `toLowerCase`, characterwise. -/
def lowerList (l : List Char) : List Char := l.map Char.toLower

/-- JavaScript `String.prototype.split` with a one-character separator: the
list of components between occurrences of `sep`; a string with no occurrence
yields itself as the single component, and the empty string yields `[""]`. -/
def splitOnChar (sep : Char) : List Char → List (List Char)
  | [] => [[]]
  | c :: rest =>
    let r := splitOnChar sep rest
    if c = sep then [] :: r
    else
      match r with
      | [] => [[c]]
      | h :: t => (c :: h) :: t

/-- JavaScript `String.prototype.trim`: drop whitespace from both ends. -/
def trimList (l : List Char) : List Char :=
  ((l.dropWhile fun c => c.isWhitespace).reverse.dropWhile
    fun c => c.isWhitespace).reverse

/-- `trim` on `String`. -/
def jsTrim (s : String) : String := ⟨trimList s.data⟩

/-- `Array.prototype.join(sep)` over strings. -/
def joinStrings (sep : String) : List String → String
  | [] => ""
  | [x] => x
  | x :: y :: t => x ++ sep ++ joinStrings sep (y :: t)

/-! ## Frontend: file validation (`VideoUploader.tsx`) -/

/-- A browser `File` as the uploader sees it: a name and a byte size. -/
structure JsFile where
  name : String
  size : Nat
deriving DecidableEq, Repr

/-- `allowedExtensions` from `VideoUploader.tsx`. -/
def allowedExtensions : List String :=
  [".mp4", ".avi", ".mov", ".mkv", ".webm", ".mpeg"]

/-- `maxFileSize` from `VideoUploader.tsx`: 5 GB. -/
def maxFileSize : Nat := 5 * 1024 * 1024 * 1024

/-- The extension string computed by `validateFile` in `VideoUploader.tsx`:
`'.' + file.name.split('.').pop()?.toLowerCase()`.  JavaScript `split` on a
string with no separator occurrence returns the whole string as the single
component, so a dotless name contributes the whole name. -/
def fileExtension (name : String) : String :=
  "." ++ ⟨lowerList ((splitOnChar '.' name.data).getLastD [])⟩

/-- Result of `validateFile`: the returned boolean and the `error` state it
leaves behind (empty string when cleared). -/
structure ValidationState where
  ok : Bool
  error : String
deriving DecidableEq, Repr

/-- `validateFile` from `VideoUploader.tsx`: rejects with a format message when
the computed extension is not allowed, rejects with a size message when the
size exceeds `maxFileSize`, otherwise clears the error and accepts. -/
def validateFile (file : JsFile) : ValidationState :=
  let extension := fileExtension file.name
  if allowedExtensions.contains extension = false then
    { ok := false,
      error := "Formato no permitido. Formatos aceptados: " ++
        joinStrings ", " allowedExtensions }
  else if maxFileSize < file.size then
    { ok := false,
      error := "El archivo es muy grande. Máximo: " ++
        toString (maxFileSize / (1024 * 1024 * 1024)) ++ "GB" }
  else
    { ok := true, error := "" }

/-- `handleDrop` / `handleChange` from `VideoUploader.tsx`: the file is
forwarded to `onFileSelect` exactly when `validateFile` returns `true`. -/
def handleDrop (file : JsFile) : Option JsFile :=
  if (validateFile file).ok then some file else none

/-- The claim's notion of a file extension, following the claim's words: the
lowercased suffix after the last dot, prefixed with the dot — existing only
when the name actually contains a dot. -/
def claimedExtension (name : String) : Option String :=
  if name.data.contains '.' then
    some ("." ++ ⟨lowerList ((splitOnChar '.' name.data).getLastD [])⟩)
  else
    none

/-- The acceptance condition as the claim states it: the extension (in the
claim's sense) is one of the allowed ones and the size is at most 5 GB. -/
def claimAccepts (file : JsFile) : Bool :=
  (match claimedExtension file.name with
   | some e => allowedExtensions.contains e
   | none => false) && decide (file.size ≤ maxFileSize)

/-! ## Frontend: API client selection (`services/api.ts`) -/

/-- `DIRECT_BACKEND_URL` from `api.ts`. -/
def DIRECT_BACKEND_URL : String := "http://localhost:8009/api"

/-- `API_BASE_URL` from `api.ts`. -/
def API_BASE_URL : String := "/api"

/-- `LARGE_FILE_THRESHOLD` from `api.ts`: 500 MB. -/
def LARGE_FILE_THRESHOLD : Nat := 500 * 1024 * 1024

/-- The two axios clients created in `api.ts`: the direct backend client and
the Vite-proxied client. -/
inductive ApiClient
  | direct
  | proxied
deriving DecidableEq, Repr

/-- Base URL of each axios client, from the `axios.create` calls in `api.ts`. -/
def clientBaseURL : ApiClient → String
  | .direct => DIRECT_BACKEND_URL
  | .proxied => API_BASE_URL

/-- Client chosen by `uploadAndProcess` in `api.ts`:
`file.size > LARGE_FILE_THRESHOLD ? directApi : api`. -/
def uploadAndProcessClient (file : JsFile) : ApiClient :=
  if file.size > LARGE_FILE_THRESHOLD then .direct else .proxied

/-- Client chosen by `generateClips` in `api.ts`: the same threshold test. -/
def generateClipsClient (file : JsFile) : ApiClient :=
  if file.size > LARGE_FILE_THRESHOLD then .direct else .proxied

/-! ## Frontend: regenerate-suggestions payload (`SuggestionsPanel.tsx`) -/

/-- The `custom_instructions` value sent by `handleRegenerateSuggestions` in
`SuggestionsPanel.tsx`: `customInstructions.trim() || undefined`, i.e. the
trimmed string, or absent when the trimmed string is empty. -/
def sentCustomInstructions (customInstructions : String) : Option String :=
  let trimmed := jsTrim customInstructions
  if trimmed = "" then none else some trimmed

/-! ## Backend data model

Modelled from the spec: the backend pipeline sources
(`whisper_service.py`, `video_processor.py`, `recover_transcription.py`) are
not part of the repository snapshot — only their design documentation is — so
the data model and operations below follow spec sections 3, 4, 6 and 7
verbatim. -/

/-- Modelled from the spec: one timed text segment returned by the
TranscriptionEngine (`{text, start, end}`); times are modelled as exact
rationals. -/
structure RawSegment where
  text : String
  start : ℚ
  «end» : ℚ
deriving DecidableEq, Repr

/-- Modelled from the spec: the TranscriptionEngine result
`{segments, duration, language, text}`. -/
structure RawResult where
  segments : List RawSegment
  language : String
  duration : ℚ
  text : String
deriving DecidableEq, Repr

/-- Modelled from the spec: one normalized formatted segment
`{timestamp, text, startSeconds, endSeconds?}`. -/
structure FormattedSegment where
  timestamp : String
  text : String
  startSeconds : ℚ
  endSeconds : Option ℚ
deriving DecidableEq, Repr

/-- Modelled from the spec: job `status`. -/
inductive Status
  | started
  | in_progress
  | complete
  | failed
deriving DecidableEq, Repr

/-- Modelled from the spec: job `stage`. -/
inductive Stage
  | initializing
  | extracting_audio
  | transcribing
  | transcription_complete
  | complete
deriving DecidableEq, Repr

/-- Modelled from the spec: the Job record persisted by ProgressStore
(spec section 3), with the `duration` and `segmentCount` fields the
orchestrator adds at step 6. -/
structure Job where
  jobId : String
  sourcePath : String
  originalFilename : String
  status : Status
  stage : Stage
  progressPercent : Nat
  rawTranscriptionResult : Option RawResult
  formattedSegments : Option (List FormattedSegment)
  segmentCount : Option Nat
  duration : Option ℚ
  error : Option String
  startedAt : Nat
  whisperCompletedAt : Option Nat
deriving DecidableEq, Repr

/-- Modelled from the spec: the SuggestionEngine output
`{titles[], description, thumbnailPrompt, highlights[], actionItems[]}`. -/
structure Suggestions where
  titles : List String
  description : String
  thumbnailPrompt : String
  highlights : List String
  actionItems : List String
deriving DecidableEq, Repr

/-- Modelled from the spec: the default placeholder suggestion bundle
substituted on SuggestionEngine failure (empty titles per the spec's
scenario `suggestions.titles==[]`). -/
def defaultSuggestions : Suggestions :=
  { titles := [], description := "", thumbnailPrompt := "",
    highlights := [], actionItems := [] }

/-- Modelled from the spec: the durable AnalysisRecord artifact — original
filename, full formatted transcript, suggestion bundle, duration, processed
timestamp, plus the `degraded` and `recovered` markers. -/
structure AnalysisRecord where
  key : String
  originalFilename : String
  transcript : List FormattedSegment
  suggestions : Suggestions
  duration : ℚ
  processedAt : Nat
  degraded : Bool
  recovered : Bool
deriving DecidableEq, Repr

/-- Modelled from the spec: SuggestionEngine failure modes
`QuotaExceeded | AuthError | EngineError`. -/
inductive SuggestionError
  | quotaExceeded
  | authError
  | engineError
deriving DecidableEq, Repr

/-- Modelled from the spec: the orchestrator's fatal error
(`TranscriptionFailed`). -/
inductive RunError
  | transcriptionFailed (msg : String)
deriving DecidableEq, Repr

/-- Modelled from the spec: RecoveryTool failure (`NothingToRecover`). -/
inductive RecoveryError
  | nothingToRecover
deriving DecidableEq, Repr

/-! ## ProgressStore updates -/

/-- Modelled from the spec: a partial-fields update passed to
`ProgressStore.update`; `none` means "field not mentioned by this update". -/
structure JobUpdate where
  status : Option Status := none
  stage : Option Stage := none
  progressPercent : Option Nat := none
  rawTranscriptionResult : Option RawResult := none
  formattedSegments : Option (List FormattedSegment) := none
  segmentCount : Option Nat := none
  duration : Option ℚ := none
  error : Option String := none
  whisperCompletedAt : Option Nat := none
deriving DecidableEq, Repr

/-- Merge of one optional field: an update that mentions the field replaces
it, otherwise the stored value is kept. -/
def mergeField {α : Type} : Option α → Option α → Option α
  | some a, _ => some a
  | none, b => b

/-- Modelled from the spec: `ProgressStore.update` merges the update's fields
into the stored snapshot. -/
def applyUpdate (j : Job) (u : JobUpdate) : Job :=
  { j with
    status := u.status.getD j.status,
    stage := u.stage.getD j.stage,
    progressPercent := u.progressPercent.getD j.progressPercent,
    rawTranscriptionResult :=
      mergeField u.rawTranscriptionResult j.rawTranscriptionResult,
    formattedSegments := mergeField u.formattedSegments j.formattedSegments,
    segmentCount := mergeField u.segmentCount j.segmentCount,
    duration := mergeField u.duration j.duration,
    error := mergeField u.error j.error,
    whisperCompletedAt := mergeField u.whisperCompletedAt j.whisperCompletedAt }

/-! ## Execution traces -/

/-- Modelled from the spec: the observable operations of one `runJob`
execution — durable store writes and the two external engine invocations. -/
inductive Event
  | storeCreate (job : Job)
  | storeUpdate (jobId : String) (upd : JobUpdate)
  | transcribeCall (path : String) (language : String)
  | suggestCall (segments : List FormattedSegment)
      (customInstructions : Option String)
deriving DecidableEq, Repr

/-- Whether an event is a durable write carrying `rawTranscriptionResult`. -/
def writesRaw : Event → Bool
  | .storeUpdate _ u => u.rawTranscriptionResult.isSome
  | _ => false

/-- Whether an event is a durable write carrying `formattedSegments`. -/
def writesFormatted : Event → Bool
  | .storeUpdate _ u => u.formattedSegments.isSome
  | _ => false

/-- Whether an event is the SuggestionEngine invocation. -/
def isSuggestCall : Event → Bool
  | .suggestCall _ _ => true
  | _ => false

/-- Whether an event is the TranscriptionEngine invocation. -/
def isTranscribeCall : Event → Bool
  | .transcribeCall _ _ => true
  | _ => false

/-- Whether an event is a durable write setting `status = failed`. -/
def setsFailed : Event → Bool
  | .storeUpdate _ u => u.status = some Status.failed
  | _ => false

/-- The state of this job's ProgressStore record after a prefix of events:
`none` before `create`, then the merged snapshot. -/
def stepEvent (s : Option Job) (e : Event) : Option Job :=
  match e with
  | .storeCreate j => some j
  | .storeUpdate _ u => s.map (fun j => applyUpdate j u)
  | _ => s

/-- All states the ProgressStore record passes through along a trace
(including the initial empty state). -/
def storeStates (events : List Event) : List (Option Job) :=
  events.scanl stepEvent none

/-! ## Formatting (bucketing) -/

/-- Modelled from the spec: a two-digit decimal field. -/
def pad2 (n : Nat) : String :=
  if n < 10 then "0" ++ toString n else toString n

/-- Floor of a non-negative rational number of seconds. -/
def floorSeconds (q : ℚ) : Nat := (q.num / (q.den : ℤ)).toNat

/-- Modelled from the spec: `mm:ss` timestamp of a start time, the format of
the documented progress files (`"timestamp": "00:00"`). -/
def secondsToTimestamp (q : ℚ) : String :=
  pad2 (floorSeconds q / 60) ++ ":" ++ pad2 (floorSeconds q % 60)

/-- Modelled from the spec: the deterministic bucketing rule deriving one
formatted segment per raw engine segment (the spec's section 9 leaves the
bucketing rule open and asks for a documented deterministic choice; this is
the identity bucketing matching the documented progress-file example). -/
def formatSegment (s : RawSegment) : FormattedSegment :=
  { timestamp := secondsToTimestamp s.start, text := s.text,
    startSeconds := s.start, endSeconds := some s.«end» }

/-- Modelled from the spec: step 6's derivation of `formattedSegments` from
the raw result's segments, shared verbatim with `RecoveryTool.recover`. -/
def formatSegments (segs : List RawSegment) : List FormattedSegment :=
  segs.map formatSegment

/-! ## JobOrchestrator -/

/-- Modelled from the spec: the Job record created at step 1
(`status=started, stage=initializing, progressPercent=0`). -/
def initialJob (jobId sourcePath originalFilename : String)
    (startedAt : Nat) : Job :=
  { jobId := jobId, sourcePath := sourcePath,
    originalFilename := originalFilename,
    status := .started, stage := .initializing, progressPercent := 0,
    rawTranscriptionResult := none, formattedSegments := none,
    segmentCount := none, duration := none, error := none,
    startedAt := startedAt, whisperCompletedAt := none }

/-- Outcome of one `runJob` execution: its full trace of observable
operations, the value returned to the caller, and the final persisted Job
snapshot. -/
structure RunOutcome where
  trace : List Event
  result : Except RunError AnalysisRecord
  finalJob : Job

/-- Modelled from the spec: `JobOrchestrator.runJob` (spec section 4.2,
steps 1-9).  The two external engines are passed in as oracles: the
TranscriptionEngine outcome (`Except` an error message) and the
SuggestionEngine outcome.  On engine failure the job is marked failed and a
`TranscriptionFailed` error propagates; on suggestion failure the default
bundle is substituted and the record is marked degraded. -/
def runJob (jobId sourcePath originalFilename language : String)
    (startedAt completedAt : Nat) (customInstructions : Option String)
    (engineResult : Except String RawResult)
    (suggestResult : Except SuggestionError Suggestions) : RunOutcome :=
  let j0 := initialJob jobId sourcePath originalFilename startedAt
  let u2 : JobUpdate :=
    { status := some .in_progress, stage := some .extracting_audio,
      progressPercent := some 5 }
  let u3 : JobUpdate :=
    { stage := some .transcribing, progressPercent := some 10 }
  let pre : List Event :=
    [.storeCreate j0, .storeUpdate jobId u2, .storeUpdate jobId u3,
     .transcribeCall sourcePath language]
  match engineResult with
  | .error msg =>
    let uf : JobUpdate :=
      { status := some .failed,
        error := some ("Whisper transcription failed: " ++ msg) }
    { trace := pre ++ [.storeUpdate jobId uf],
      result := .error (.transcriptionFailed msg),
      finalJob := applyUpdate (applyUpdate (applyUpdate j0 u2) u3) uf }
  | .ok raw =>
    let u5 : JobUpdate :=
      { rawTranscriptionResult := some raw,
        whisperCompletedAt := some completedAt }
    let fs := formatSegments raw.segments
    let u6 : JobUpdate :=
      { formattedSegments := some fs, segmentCount := some fs.length,
        duration := some raw.duration, stage := some .transcription_complete,
        progressPercent := some 90 }
    let chosen : Suggestions × Bool :=
      match suggestResult with
      | .ok s => (s, false)
      | .error _ => (defaultSuggestions, true)
    let u8 : JobUpdate :=
      { status := some .complete, stage := some .complete,
        progressPercent := some 100 }
    let record : AnalysisRecord :=
      { key := toString completedAt ++ "_" ++ originalFilename,
        originalFilename := originalFilename, transcript := fs,
        suggestions := chosen.1, duration := raw.duration,
        processedAt := completedAt, degraded := chosen.2, recovered := false }
    { trace := pre ++
        [.storeUpdate jobId u5, .storeUpdate jobId u6,
         .suggestCall fs customInstructions, .storeUpdate jobId u8],
      result := .ok record,
      finalJob :=
        applyUpdate (applyUpdate (applyUpdate (applyUpdate
          (applyUpdate j0 u2) u3) u5) u6) u8 }

/-! ## RecoveryTool -/

/-- Modelled from the spec: the transcript `recover` extracts — prefer
`formattedSegments`; when absent derive from `rawTranscriptionResult` with
the step-6 bucketing (`formatSegments`); when both are absent, nothing. -/
def recoverSegments (job : Job) : Option (List FormattedSegment) :=
  match job.formattedSegments with
  | some fs => some fs
  | none =>
    match job.rawTranscriptionResult with
    | some raw => some (formatSegments raw.segments)
    | none => none

/-- Duration recorded on a recovered AnalysisRecord: the job's persisted
duration when present, else the raw result's, else zero. -/
def recoveredDuration (job : Job) : ℚ :=
  match job.duration with
  | some d => d
  | none =>
    match job.rawTranscriptionResult with
    | some raw => raw.duration
    | none => 0

/-- Modelled from the spec: the AnalysisRecord built by a recovery — marked
`recovered=true`, default suggestions, keyed by the recovery timestamp, the
original filename and a `_RECOVERED` suffix. -/
def recoveredRecord (job : Job) (fs : List FormattedSegment)
    (timestamp : Nat) : AnalysisRecord :=
  { key := toString timestamp ++ "_" ++ job.originalFilename ++ "_RECOVERED",
    originalFilename := job.originalFilename, transcript := fs,
    suggestions := defaultSuggestions,
    duration := recoveredDuration job,
    processedAt := timestamp, degraded := false, recovered := true }

/-- Modelled from the spec: `RecoveryTool.recover` on a read Job record —
`NothingToRecover` when no transcript checkpoint exists, otherwise the new
distinctly-named AnalysisRecord. -/
def recover (job : Job) (timestamp : Nat) :
    Except RecoveryError AnalysisRecord :=
  match recoverSegments job with
  | none => .error .nothingToRecover
  | some fs => .ok (recoveredRecord job fs timestamp)

/-- The durable state RecoveryTool operates on: the Job records (keyed by job
id) and the already-persisted AnalysisRecords. -/
structure StoreState where
  jobs : List (String × Job)
  analyses : List AnalysisRecord
deriving DecidableEq, Repr

/-- Read a Job record by id. -/
def lookupJob (st : StoreState) (jobId : String) : Option Job :=
  (st.jobs.find? fun p => p.1 == jobId).map fun p => p.2

/-- Modelled from the spec: `recover` against the durable state — reads the
Job record (never mutating it) and persists the recovered AnalysisRecord as a
new record alongside the existing ones. -/
def recoverPersist (st : StoreState) (jobId : String) (timestamp : Nat) :
    Except RecoveryError (AnalysisRecord × StoreState) :=
  match lookupJob st jobId with
  | none => .error .nothingToRecover
  | some job =>
    match recover job timestamp with
    | .error e => .error e
    | .ok rec =>
      .ok (rec, { st with analyses := st.analyses ++ [rec] })

/-- Modelled from the spec (section 8): the TranscriptionEngine's result
contract — the reported duration spans to the last segment's `end`. -/
def RawResult.wellFormed (raw : RawResult) : Bool :=
  match raw.segments.getLast? with
  | some last => raw.duration == last.«end»
  | none => true

/-- The checkpoint-preservation relation between two snapshots of a job's
store record: whatever transcript checkpoint the earlier snapshot holds, the
later snapshot holds unchanged. -/
def PreservesCheckpoints (s t : Option Job) : Prop :=
  (∀ r, s.bind Job.rawTranscriptionResult = some r →
    t.bind Job.rawTranscriptionResult = some r) ∧
  (∀ f, s.bind Job.formattedSegments = some f →
    t.bind Job.formattedSegments = some f)

/-! ## Generic helper lemmas -/

theorem get?_some_lt {α : Type} {l : List α} {i : Nat} {a : α}
    (h : l.get? i = some a) : i < l.length := by
  by_contra hc
  rw [List.get?_eq_none.mpr (Nat.le_of_not_lt hc)] at h
  exact Option.noConfusion h

theorem preservesCheckpoints_refl (s : Option Job) :
    PreservesCheckpoints s s :=
  ⟨fun _ h => h, fun _ h => h⟩

theorem preservesCheckpoints_trans {s t u : Option Job}
    (h1 : PreservesCheckpoints s t) (h2 : PreservesCheckpoints t u) :
    PreservesCheckpoints s u :=
  ⟨fun r hr => h2.1 r (h1.1 r hr), fun f hf => h2.2 f (h1.2 f hf)⟩

theorem rel_of_chain'_le {α : Type} {R : α → α → Prop}
    (hrefl : ∀ a, R a a)
    (htrans : ∀ a b c, R a b → R b c → R a c)
    {l : List α} (h : List.Chain' R l) :
    ∀ {j i : Nat} {a b : α}, i ≤ j →
      l.get? i = some a → l.get? j = some b → R a b := by
  intro j
  induction j with
  | zero =>
    intro i a b hij ha hb
    have hi0 : i = 0 := Nat.le_zero.mp hij
    subst hi0
    rw [ha] at hb
    cases hb
    exact hrefl a
  | succ k ih =>
    intro i a b hij ha hb
    rcases Nat.lt_or_ge i (k + 1) with hlt | hge
    · have hik : i ≤ k := Nat.lt_succ_iff.mp hlt
      have hkb : k + 1 < l.length := get?_some_lt hb
      have hk : k < l.length := Nat.lt_of_succ_lt hkb
      have hc : l.get? k = some (l.get ⟨k, hk⟩) := List.get?_eq_get hk
      have hkb1 : k < l.length - 1 := by omega
      have hb' : b = l.get ⟨k + 1, hkb⟩ := by
        rw [List.get?_eq_get hkb] at hb
        exact (Option.some.inj hb).symm
      have hstep : R (l.get ⟨k, hk⟩) (l.get ⟨k + 1, hkb⟩) :=
        List.chain'_iff_get.mp h k hkb1
      exact htrans a (l.get ⟨k, hk⟩) b (ih hik ha hc) (hb' ▸ hstep)
    · have hieq : i = k + 1 := Nat.le_antisymm hij hge
      subst hieq
      rw [ha] at hb
      cases hb
      exact hrefl a

/-! ## Claim theorems -/

/-- C9 counterexample: a file named `mp4` — which has no extension, since its
name contains no dot — is nevertheless accepted by `validateFile` (and
forwarded by `handleDrop`), because the code treats the whole dotless name as
the extension; this refutes the claimed "only if" direction. -/
theorem validateFile_accepts_dotless_name :
    (validateFile ⟨"mp4", 100⟩).ok = true ∧
    claimAccepts ⟨"mp4", 100⟩ = false ∧
    handleDrop ⟨"mp4", 100⟩ = some ⟨"mp4", 100⟩ := by
  refine ⟨?_, ?_, ?_⟩ <;> decide

/-- C9 (amended): `validateFile` accepts a file exactly when `'.'` followed by
the lowercased last `'.'`-separated component of its name (the whole name
when it contains no dot) is one of `.mp4 .avi .mov .mkv .webm .mpeg` and its
size is at most `5*1024*1024*1024` bytes; on acceptance the error is cleared
and the file is forwarded to `onFileSelect`, on rejection a non-empty error
message is set and the file is not forwarded. -/
theorem validateFile_acceptance (file : JsFile) :
    ((validateFile file).ok = true ↔
      allowedExtensions.contains (fileExtension file.name) = true ∧
        file.size ≤ maxFileSize) ∧
    ((validateFile file).ok = true →
      (validateFile file).error = "" ∧ handleDrop file = some file) ∧
    ((validateFile file).ok = false →
      (validateFile file).error ≠ "" ∧ handleDrop file = none) := by
  by_cases hc : allowedExtensions.contains (fileExtension file.name) = false
  · have hmem : fileExtension file.name ∉ allowedExtensions := by simpa using hc
    simp [validateFile, handleDrop, hmem]
    decide
  · have hmem : fileExtension file.name ∈ allowedExtensions := by
      have := hc
      simp only [Bool.not_eq_false] at this
      simpa using this
    by_cases hs : maxFileSize < file.size
    · simp [validateFile, handleDrop, hmem, hs]
      decide
    · simp [validateFile, handleDrop, hmem, hs]
      omega

/-- C9 witness: a well-formed `.mp4` file of 50 bytes is accepted and
forwarded. -/
theorem validateFile_acceptance_witness :
    handleDrop ⟨"video.mp4", 50⟩ = some ⟨"video.mp4", 50⟩ :=
  ((validateFile_acceptance ⟨"video.mp4", 50⟩).2.1 (by decide)).2

/-- C10: `uploadAndProcess` and `generateClips` route the request through the
direct backend client (base URL `http://localhost:8009/api`) exactly when the
file is strictly larger than the 500 MB threshold; a file of exactly the
threshold size or smaller uses the proxied `/api` client. -/
theorem large_file_client_threshold (file : JsFile) :
    (uploadAndProcessClient file = .direct ↔
      LARGE_FILE_THRESHOLD < file.size) ∧
    (generateClipsClient file = .direct ↔
      LARGE_FILE_THRESHOLD < file.size) ∧
    (file.size ≤ LARGE_FILE_THRESHOLD →
      uploadAndProcessClient file = .proxied ∧
      generateClipsClient file = .proxied) ∧
    clientBaseURL .direct = "http://localhost:8009/api" ∧
    clientBaseURL .proxied = "/api" := by
  simp only [uploadAndProcessClient, generateClipsClient, clientBaseURL]
  by_cases h : LARGE_FILE_THRESHOLD < file.size
  · rw [if_pos h]
    exact ⟨by simp [h], by simp [h], fun hle => absurd h (by omega),
      rfl, rfl⟩
  · rw [if_neg h]
    exact ⟨by simp [h], by simp [h], fun _ => ⟨rfl, rfl⟩, rfl, rfl⟩

/-- C10 witness: a file of exactly the 500 MB threshold uses the proxied
client. -/
theorem large_file_client_threshold_witness :
    uploadAndProcessClient ⟨"video.mp4", 500 * 1024 * 1024⟩ = .proxied :=
  ((large_file_client_threshold ⟨"video.mp4", 500 * 1024 * 1024⟩).2.2.1
    (by decide)).1

/-- C8 counterexample: the instruction string `" hola "` is neither empty nor
whitespace-only, yet it is not passed verbatim — the payload carries the
trimmed string `"hola"` instead. -/
theorem custom_instructions_not_verbatim :
    jsTrim " hola " ≠ "" ∧
    sentCustomInstructions " hola " ≠ some " hola " ∧
    sentCustomInstructions " hola " = some "hola" := by
  refine ⟨?_, ?_, ?_⟩ <;> decide

/-- C8 (amended): an empty or whitespace-only custom-instructions string is
sent to the backend as absent; any other string is sent trimmed of leading
and trailing whitespace, with no further transformation. -/
theorem custom_instructions_trimmed (s : String) :
    (jsTrim s = "" → sentCustomInstructions s = none) ∧
    (jsTrim s ≠ "" → sentCustomInstructions s = some (jsTrim s)) := by
  unfold sentCustomInstructions
  constructor <;> intro h <;> simp [h]

/-- C8 witness: `"hola "` is sent as its trimmed form. -/
theorem custom_instructions_trimmed_witness :
    sentCustomInstructions "hola " = some (jsTrim "hola ") :=
  (custom_instructions_trimmed "hola ").2 (by decide)

/-- C4: `recover` yields `NothingToRecover` exactly when both transcript
checkpoints are absent; with `formattedSegments` present it builds the
recovered record from them, and with only `rawTranscriptionResult` present it
derives the segments with the orchestrator's step-6 bucketing
(`formatSegments`). -/
theorem recover_case_analysis (job : Job) (t : Nat) :
    (recover job t = .error .nothingToRecover ↔
      job.formattedSegments = none ∧ job.rawTranscriptionResult = none) ∧
    (∀ fs, job.formattedSegments = some fs →
      recover job t = .ok (recoveredRecord job fs t) ∧
      (recoveredRecord job fs t).transcript = fs ∧
      (recoveredRecord job fs t).recovered = true) ∧
    (∀ raw, job.formattedSegments = none →
      job.rawTranscriptionResult = some raw →
      recover job t =
        .ok (recoveredRecord job (formatSegments raw.segments) t) ∧
      (recoveredRecord job (formatSegments raw.segments) t).transcript =
        formatSegments raw.segments ∧
      (recoveredRecord job (formatSegments raw.segments) t).recovered =
        true) := by
  refine ⟨?_, ?_, ?_⟩
  · rcases hf : job.formattedSegments with _ | fs
    · rcases hr : job.rawTranscriptionResult with _ | raw
      · simp [recover, recoverSegments, hf, hr]
      · simp [recover, recoverSegments, hf, hr]
    · simp [recover, recoverSegments, hf]
  · intro fs hf
    exact ⟨by simp [recover, recoverSegments, hf], rfl, rfl⟩
  · intro raw hf hr
    exact ⟨by simp [recover, recoverSegments, hf, hr], rfl, rfl⟩

/-- C4 witness: a job with no checkpoints is reported `NothingToRecover`. -/
theorem recover_case_analysis_witness :
    recover (initialJob "job1" "up/a.mp4" "a.mp4" 0) 5
      = .error .nothingToRecover :=
  (recover_case_analysis (initialJob "job1" "up/a.mp4" "a.mp4" 0) 5).1.mpr
    ⟨rfl, rfl⟩

/-- C6: recovering the same job twice appends two distinct AnalysisRecords to
the store (the second call overwrites neither the first nor any existing
record, and the jobs table is untouched by both calls), and both records
carry identical transcript content. -/
theorem recover_twice_distinct (st : StoreState) (jobId : String) (job : Job)
    (fs : List FormattedSegment) (t1 t2 : Nat)
    (hjob : lookupJob st jobId = some job)
    (hfs : recoverSegments job = some fs)
    (hne : t1 ≠ t2) :
    recoverPersist st jobId t1 =
      .ok (recoveredRecord job fs t1,
        { st with analyses := st.analyses ++ [recoveredRecord job fs t1] }) ∧
    recoverPersist
        { st with analyses := st.analyses ++ [recoveredRecord job fs t1] }
        jobId t2 =
      .ok (recoveredRecord job fs t2,
        { st with analyses := st.analyses ++
            [recoveredRecord job fs t1, recoveredRecord job fs t2] }) ∧
    recoveredRecord job fs t1 ≠ recoveredRecord job fs t2 ∧
    (recoveredRecord job fs t1).transcript =
      (recoveredRecord job fs t2).transcript := by
  have hjob1 :
      lookupJob
        { st with analyses := st.analyses ++ [recoveredRecord job fs t1] }
        jobId = some job := hjob
  refine ⟨?_, ?_, ?_, rfl⟩
  · simp [recoverPersist, hjob, recover, hfs]
  · simp [recoverPersist, hjob1, recover, hfs]
  · intro h
    exact hne (congrArg AnalysisRecord.processedAt h)

/-- C6 witness: two recoveries at timestamps 1 and 2 of a one-job store. -/
theorem recover_twice_distinct_witness :
    recoveredRecord
        { initialJob "job1" "up/a.mp4" "a.mp4" 0 with
            formattedSegments := some [] } [] 1 ≠
      recoveredRecord
        { initialJob "job1" "up/a.mp4" "a.mp4" 0 with
            formattedSegments := some [] } [] 2 :=
  (recover_twice_distinct
    ⟨[("job1", { initialJob "job1" "up/a.mp4" "a.mp4" 0 with
        formattedSegments := some [] })], []⟩
    "job1"
    { initialJob "job1" "up/a.mp4" "a.mp4" 0 with
        formattedSegments := some [] }
    [] 1 2 (by decide) (by decide) (by decide)).2.2.1

/-- C2: when transcription succeeds and the SuggestionEngine then fails (with
any of its failure modes), `runJob` still returns an AnalysisRecord carrying
the full formatted transcript and the non-null default suggestion bundle,
marked `degraded=true`; the final job status is `complete` and no write in
the whole trace sets the status to `failed`. -/
theorem suggestion_failure_degrades
    (jobId sourcePath originalFilename language : String)
    (startedAt completedAt : Nat) (ci : Option String)
    (raw : RawResult) (err : SuggestionError) :
    (runJob jobId sourcePath originalFilename language startedAt completedAt
        ci (Except.ok raw) (Except.error err)).result =
      Except.ok
        { key := toString completedAt ++ "_" ++ originalFilename,
          originalFilename := originalFilename,
          transcript := formatSegments raw.segments,
          suggestions := defaultSuggestions,
          duration := raw.duration,
          processedAt := completedAt,
          degraded := true, recovered := false } ∧
    (runJob jobId sourcePath originalFilename language startedAt completedAt
        ci (Except.ok raw) (Except.error err)).finalJob.status =
      Status.complete ∧
    ∀ e ∈ (runJob jobId sourcePath originalFilename language startedAt
        completedAt ci (Except.ok raw) (Except.error err)).trace,
      setsFailed e = false := by
  refine ⟨rfl, rfl, ?_⟩
  intro e he
  fin_cases he <;> rfl

/-- C2 witness: a concrete quota-exceeded run still yields the degraded
record with the full transcript. -/
theorem suggestion_failure_degrades_witness :
    (runJob "job1" "up/a.mp4" "a.mp4" "es" 0 1 none
        (Except.ok ⟨[⟨"hola", 0, 5⟩], "es", 5, "hola"⟩)
        (Except.error SuggestionError.quotaExceeded)).result =
      Except.ok
        { key := toString 1 ++ "_" ++ "a.mp4",
          originalFilename := "a.mp4",
          transcript := formatSegments [⟨"hola", 0, 5⟩],
          suggestions := defaultSuggestions,
          duration := 5,
          processedAt := 1,
          degraded := true, recovered := false } :=
  (suggestion_failure_degrades "job1" "up/a.mp4" "a.mp4" "es" 0 1 none
    ⟨[⟨"hola", 0, 5⟩], "es", 5, "hola"⟩ SuggestionError.quotaExceeded).1

/-- C5: when the TranscriptionEngine fails, `runJob` durably records
`status=failed` with an error message, returns a `TranscriptionFailed` error
(so no AnalysisRecord is produced), never invokes the SuggestionEngine, and
invokes the TranscriptionEngine exactly once (no retry of either engine). -/
theorem transcription_failure_terminal
    (jobId sourcePath originalFilename language : String)
    (startedAt completedAt : Nat) (ci : Option String) (msg : String)
    (suggestResult : Except SuggestionError Suggestions) :
    (runJob jobId sourcePath originalFilename language startedAt completedAt
        ci (Except.error msg) suggestResult).result =
      Except.error (RunError.transcriptionFailed msg) ∧
    (∃ e ∈ (runJob jobId sourcePath originalFilename language startedAt
        completedAt ci (Except.error msg) suggestResult).trace,
      setsFailed e = true ∧
      ∃ jid u, e = Event.storeUpdate jid u ∧
        u.error = some ("Whisper transcription failed: " ++ msg)) ∧
    (runJob jobId sourcePath originalFilename language startedAt completedAt
        ci (Except.error msg) suggestResult).trace.countP isSuggestCall = 0 ∧
    (runJob jobId sourcePath originalFilename language startedAt completedAt
        ci (Except.error msg) suggestResult).trace.countP isTranscribeCall
        = 1 ∧
    (runJob jobId sourcePath originalFilename language startedAt completedAt
        ci (Except.error msg) suggestResult).finalJob.status =
      Status.failed := by
  refine ⟨rfl, ?_, rfl, rfl, rfl⟩
  refine ⟨Event.storeUpdate jobId
      { status := some Status.failed,
        error := some ("Whisper transcription failed: " ++ msg) },
    ?_, rfl, jobId, _, rfl, rfl⟩
  simp [runJob]

/-- C5 witness: a concrete engine failure produces no suggestion call. -/
theorem transcription_failure_terminal_witness :
    (runJob "job1" "up/a.mp4" "a.mp4" "es" 0 1 none
        (Except.error "corrupt media")
        (Except.ok defaultSuggestions)).trace.countP isSuggestCall = 0 :=
  (transcription_failure_terminal "job1" "up/a.mp4" "a.mp4" "es" 0 1 none
    "corrupt media" (Except.ok defaultSuggestions)).2.2.1

/-- C1: in every trace of a run whose TranscriptionEngine invocation returns
successfully, some durable write carries `rawTranscriptionResult`, and every
such write occurs strictly before the SuggestionEngine invocation and
strictly before any write of the derived `formattedSegments`. -/
theorem checkpoint_write_precedes_suggestions
    (jobId sourcePath originalFilename language : String)
    (startedAt completedAt : Nat) (ci : Option String) (raw : RawResult)
    (suggestResult : Except SuggestionError Suggestions) :
    (∃ i, ((runJob jobId sourcePath originalFilename language startedAt
        completedAt ci (Except.ok raw) suggestResult).trace.get? i).map
        writesRaw = some true) ∧
    (∀ i j,
      ((runJob jobId sourcePath originalFilename language startedAt
        completedAt ci (Except.ok raw) suggestResult).trace.get? i).map
        writesRaw = some true →
      (((runJob jobId sourcePath originalFilename language startedAt
        completedAt ci (Except.ok raw) suggestResult).trace.get? j).map
        isSuggestCall = some true ∨
       ((runJob jobId sourcePath originalFilename language startedAt
        completedAt ci (Except.ok raw) suggestResult).trace.get? j).map
        writesFormatted = some true) →
      i < j) := by
  constructor
  · exact ⟨4, rfl⟩
  · intro i j hi hj
    have hi8 : i < 8 := by
      by_contra hc
      rw [List.get?_eq_none.mpr (Nat.le_of_not_lt hc)] at hi
      exact Option.noConfusion hi
    have hj8 : j < 8 := by
      rcases hj with hj | hj <;>
      · by_contra hc
        rw [List.get?_eq_none.mpr (Nat.le_of_not_lt hc)] at hj
        exact Option.noConfusion hj
    interval_cases i <;> interval_cases j <;>
      simp_all [runJob, writesRaw, writesFormatted, isSuggestCall]

/-- C1 witness: in a concrete successful run the raw-result write (index 4)
precedes the suggestion invocation (index 6). -/
theorem checkpoint_write_precedes_suggestions_witness :
    writesRaw (Event.storeUpdate "job1"
      { rawTranscriptionResult := some ⟨[], "es", 0, ""⟩,
        whisperCompletedAt := some 1 }) = true ∧ (4 : Nat) < 6 :=
  ⟨rfl,
    (checkpoint_write_precedes_suggestions "job1" "up/a.mp4" "a.mp4" "es" 0 1
      none ⟨[], "es", 0, ""⟩ (Except.ok defaultSuggestions)).2 4 6
      rfl (Or.inl rfl)⟩

/-- C3: along every `runJob` trace (both the failing and the successful
engine branches), the stored job's transcript checkpoint fields are
append-only — any state's `rawTranscriptionResult`/`formattedSegments`
value, once `some`, is carried unchanged into every later state — and every
reachable state whose stage is `transcription_complete` has both fields
non-null. -/
theorem checkpoint_fields_append_only
    (jobId sourcePath originalFilename language : String)
    (startedAt completedAt : Nat) (ci : Option String)
    (engineResult : Except String RawResult)
    (suggestResult : Except SuggestionError Suggestions) :
    (∀ i j si sj, i ≤ j →
      (storeStates (runJob jobId sourcePath originalFilename language
        startedAt completedAt ci engineResult suggestResult).trace).get? i
        = some si →
      (storeStates (runJob jobId sourcePath originalFilename language
        startedAt completedAt ci engineResult suggestResult).trace).get? j
        = some sj →
      PreservesCheckpoints si sj) ∧
    (∀ s ∈ storeStates (runJob jobId sourcePath originalFilename language
        startedAt completedAt ci engineResult suggestResult).trace,
      ∀ job, s = some job →
      job.stage = Stage.transcription_complete →
      job.rawTranscriptionResult.isSome = true ∧
      job.formattedSegments.isSome = true) := by
  have hchain : List.Chain' PreservesCheckpoints
      (storeStates (runJob jobId sourcePath originalFilename language
        startedAt completedAt ci engineResult suggestResult).trace) := by
    rcases engineResult with msg | raw <;>
      simp [runJob, storeStates, List.scanl, stepEvent, applyUpdate,
        mergeField, initialJob, PreservesCheckpoints, List.chain'_cons,
        List.chain'_singleton]
  refine ⟨?_, ?_⟩
  · intro i j si sj hij hi hj
    exact rel_of_chain'_le preservesCheckpoints_refl
      (fun a b c => preservesCheckpoints_trans) hchain hij hi hj
  · intro s hs job hjob hstage
    subst hjob
    rcases engineResult with msg | raw
    · simp [runJob, storeStates, List.scanl, stepEvent] at hs
      rcases hs with rfl | rfl | rfl | rfl <;>
        simp_all [applyUpdate, mergeField, initialJob]
    · simp [runJob, storeStates, List.scanl, stepEvent] at hs
      rcases hs with rfl | rfl | rfl | rfl | rfl | rfl <;>
        simp_all [applyUpdate, mergeField, initialJob]

/-- C3 witness: in a concrete failing run, the empty initial state is
checkpoint-preserved into the created job's state. -/
theorem checkpoint_fields_append_only_witness :
    PreservesCheckpoints none
      (some (initialJob "job1" "up/a.mp4" "a.mp4" 0)) :=
  (checkpoint_fields_append_only "job1" "up/a.mp4" "a.mp4" "es" 0 1 none
    (Except.error "disk full") (Except.ok defaultSuggestions)).1 0 1
    none (some (initialJob "job1" "up/a.mp4" "a.mp4" 0))
    (by decide) rfl rfl

/-- C7: every successful run reaches a state with
`stage = transcription_complete`; in every reachable state with that stage,
`formattedSegments` is present (possibly legitimately empty) and — under the
engine's documented result contract — the stored raw result's `duration`
equals the `end` of its last segment. -/
theorem transcription_complete_duration
    (jobId sourcePath originalFilename language : String)
    (startedAt completedAt : Nat) (ci : Option String) (raw : RawResult)
    (suggestResult : Except SuggestionError Suggestions)
    (hwf : raw.wellFormed = true) :
    (∃ i job, (storeStates (runJob jobId sourcePath originalFilename language
        startedAt completedAt ci (Except.ok raw) suggestResult).trace).get? i
        = some (some job) ∧ job.stage = Stage.transcription_complete) ∧
    (∀ s ∈ storeStates (runJob jobId sourcePath originalFilename language
        startedAt completedAt ci (Except.ok raw) suggestResult).trace,
      ∀ job, s = some job →
      job.stage = Stage.transcription_complete →
      job.formattedSegments.isSome = true ∧
      ∀ r, job.rawTranscriptionResult = some r →
        ∀ last, r.segments.getLast? = some last →
          r.duration = last.«end») := by
  constructor
  · exact ⟨6, _, rfl, rfl⟩
  · intro s hs job hjob hstage
    subst hjob
    simp [runJob, storeStates, List.scanl, stepEvent] at hs
    rcases hs with rfl | rfl | rfl | rfl | rfl | rfl <;>
      simp_all [applyUpdate, mergeField, initialJob]
    intro last hlast
    have h := hwf
    simp [RawResult.wellFormed, hlast] at h
    exact h

/-- C7 witness: a concrete run with a single segment ending at its duration
reaches `transcription_complete`. -/
theorem transcription_complete_duration_witness :
    ∃ i job, (storeStates (runJob "job1" "up/a.mp4" "a.mp4" "es" 0 1 none
        (Except.ok ⟨[⟨"hola", 0, 5⟩], "es", 5, "hola"⟩)
        (Except.ok defaultSuggestions)).trace).get? i
      = some (some job) ∧ job.stage = Stage.transcription_complete :=
  (transcription_complete_duration "job1" "up/a.mp4" "a.mp4" "es" 0 1 none
    ⟨[⟨"hola", 0, 5⟩], "es", 5, "hola"⟩ (Except.ok defaultSuggestions)
    (by decide)).1

end VideoTools
